import Mathlib

/-!
Verification of the CalAnywhere scheduling core: a shallow embedding of the
slot generator (frontend/src/pages/SchedulingPage.tsx), the calendar feed
expansion (backend/src/services/calendar.ts), and the pending-request /
confirmation workflow (in-memory pending-requests store and the pages
router's request and confirm handlers).

Instants are epoch milliseconds, embedded as `Int` (JavaScript `Date`
arithmetic is integer millisecond arithmetic).
-/

namespace CalAnywhere

/-- A concrete time interval (busy interval or slot): `start`/`end` in epoch ms. -/
structure Interval where
  start : Int
  «end» : Int
deriving DecidableEq, Repr

/-- The busy-overlap test `isBusy` from SchedulingPage.tsx: a candidate slot
`[start, end)` is busy iff some busy interval `slot` satisfies
`slot.start < end && slot.end > start`. -/
def isBusy (busySlots : List Interval) (start «end» : Int) : Bool :=
  busySlots.any fun slot => slot.start < «end» && slot.«end» > start

/-- The per-day slot loop of `allSlots` in SchedulingPage.tsx:
`for (let slotStart = dayStart; slotStart + duration*60000 <= dayEnd;
slotStart += slotInterval*60000)`, where a slot `[slotStart, slotStart+duration*60000)`
is emitted unless `slotStart < earliestStart` or it overlaps a busy interval.
The extra guard conjuncts `0 < slotInterval ∧ 0 ≤ duration` restrict the
definition to the domain on which the source loop terminates. -/
def genDaySlots (busySlots : List Interval) (earliestStart duration slotInterval : Int)
    (dayEnd slotStart : Int) : List Interval :=
  if h : slotStart + duration * 60000 ≤ dayEnd ∧ 0 < slotInterval ∧ 0 ≤ duration then
    let rest := genDaySlots busySlots earliestStart duration slotInterval dayEnd
      (slotStart + slotInterval * 60000)
    if slotStart < earliestStart then rest
    else if isBusy busySlots slotStart (slotStart + duration * 60000) then rest
    else ⟨slotStart, slotStart + duration * 60000⟩ :: rest
  else []
termination_by (dayEnd + 1 - slotStart).toNat
decreasing_by omega

/-- The outer day loop of `allSlots`: one `genDaySlots` run per included day,
the day's window being its 9:00 instant (`dayStart`) to its 17:00 instant
(`dayEnd`); `days` lists the `(dayStart, dayEnd)` pairs of the days the loop
does not skip. All days share `busySlots`, `earliestStart`, the duration and
the step. -/
def genAllSlots (busySlots : List Interval) (earliestStart duration slotInterval : Int)
    (days : List (Int × Int)) : List Interval :=
  days.flatMap fun d => genDaySlots busySlots earliestStart duration slotInterval d.2 d.1

/-- Every slot the per-day loop emits starts no earlier than `earliestStart`,
has length `duration` minutes, and fails the `isBusy` test. -/
theorem mem_genDaySlots (busySlots : List Interval) (earliestStart duration slotInterval : Int)
    (dayEnd slotStart : Int) (s : Interval)
    (hs : s ∈ genDaySlots busySlots earliestStart duration slotInterval dayEnd slotStart) :
    earliestStart ≤ s.start ∧ s.«end» = s.start + duration * 60000 ∧
      isBusy busySlots s.start s.«end» = false := by
  revert hs
  induction slotStart
    using genDaySlots.induct busySlots earliestStart duration slotInterval dayEnd with
  | case1 x h h1 ih =>
    rw [genDaySlots, dif_pos h, if_pos h1]
    exact ih
  | case2 x h h1 h2 ih =>
    rw [genDaySlots, dif_pos h, if_neg h1, if_pos h2]
    exact ih
  | case3 x h h1 h2 ih =>
    rw [genDaySlots, dif_pos h, if_neg h1, if_neg h2]
    intro hs
    rcases List.mem_cons.mp hs with heq | hmem
    · subst heq
      exact ⟨not_lt.mp h1, rfl, by simpa using h2⟩
    · exact ih hmem
  | case4 x h =>
    rw [genDaySlots, dif_neg h]
    intro hs
    simp at hs

/-- C2: no generated slot overlaps any busy interval fed into the same
computation, under the half-open overlap test: for a slot `s` and busy
interval `b`, `s.start < b.end` and `s.end > b.start` never both hold. -/
theorem slots_never_overlap_busy (busySlots : List Interval)
    (earliestStart duration slotInterval : Int) (days : List (Int × Int))
    (s b : Interval)
    (hs : s ∈ genAllSlots busySlots earliestStart duration slotInterval days)
    (hb : b ∈ busySlots) :
    ¬(s.start < b.«end» ∧ s.«end» > b.start) := by
  obtain ⟨d, _, hmem⟩ := List.mem_flatMap.mp hs
  have h := mem_genDaySlots busySlots earliestStart duration slotInterval d.2 d.1 s hmem
  rintro ⟨h1, h2⟩
  have hfree := h.2.2
  simp only [isBusy, List.any_eq_false] at hfree
  have hb2 := hfree b hb
  simp at hb2
  omega

/-- Closed instance of `slots_never_overlap_busy`: the 9:00–9:30 slot of a
9:00–10:00 workday at epoch day 0 against the 10:00–10:30 busy interval. -/
theorem slots_never_overlap_busy_witness :
    ¬((32400000 : Int) < 37800000 ∧ (34200000 : Int) > 36000000) := by
  refine slots_never_overlap_busy [⟨36000000, 37800000⟩] 0 30 30 [(32400000, 36000000)]
    ⟨32400000, 34200000⟩ ⟨36000000, 37800000⟩ ?_ (by simp)
  simp only [genAllSlots, List.flatMap_cons, List.flatMap_nil, List.append_nil]
  simp [genDaySlots, isBusy]

/-- C3: every generated slot starts no earlier than `now + minNoticeHours`
(in ms: `now + minNoticeHours * 3600000`), the `earliestStart` cutoff of
SchedulingPage.tsx. -/
theorem slots_respect_min_notice (busySlots : List Interval)
    (now minNoticeHours duration slotInterval : Int) (days : List (Int × Int))
    (s : Interval)
    (hs : s ∈ genAllSlots busySlots (now + minNoticeHours * 3600000) duration
      slotInterval days) :
    now + minNoticeHours * 3600000 ≤ s.start := by
  obtain ⟨d, _, hmem⟩ := List.mem_flatMap.mp hs
  exact (mem_genDaySlots busySlots (now + minNoticeHours * 3600000) duration slotInterval
    d.2 d.1 s hmem).1

/-- Closed instance of `slots_respect_min_notice`: `now = 0`,
`minNoticeHours = 9`, so the cutoff is the 9:00 workday start itself. -/
theorem slots_respect_min_notice_witness :
    (0 : Int) + 9 * 3600000 ≤ (⟨32400000, 34200000⟩ : Interval).start := by
  refine slots_respect_min_notice [] 0 9 30 30 [(32400000, 34200000)]
    ⟨32400000, 34200000⟩ ?_
  simp only [genAllSlots, List.flatMap_cons, List.flatMap_nil, List.append_nil]
  simp [genDaySlots, isBusy]

/-- The `earliestStart` cutoff is inert on a day whose first candidate slot
already starts at or after it: two cutoffs both at or before `slotStart`
produce the same slots. -/
theorem genDaySlots_cutoff_inert (busySlots : List Interval) (e1 e2 d i de : Int)
    (st : Int) (he1 : e1 ≤ st) (he2 : e2 ≤ st) :
    genDaySlots busySlots e1 d i de st = genDaySlots busySlots e2 d i de st := by
  revert he1 he2
  induction st using genDaySlots.induct busySlots e1 d i de with
  | case1 x h h1 ih =>
    intro he1 _
    omega
  | case2 x h h1 h2 ih =>
    intro he1 he2
    conv_lhs => rw [genDaySlots]
    conv_rhs => rw [genDaySlots]
    rw [dif_pos h, dif_pos h, if_neg h1, if_neg (not_lt.mpr he2), if_pos h2, if_pos h2]
    exact ih (by omega) (by omega)
  | case3 x h h1 h2 ih =>
    intro he1 he2
    conv_lhs => rw [genDaySlots]
    conv_rhs => rw [genDaySlots]
    rw [dif_pos h, dif_pos h, if_neg h1, if_neg (not_lt.mpr he2), if_neg h2, if_neg h2]
    rw [ih (by omega) (by omega)]
  | case4 x h =>
    intro _ _
    conv_lhs => rw [genDaySlots]
    conv_rhs => rw [genDaySlots]
    rw [dif_neg h, dif_neg h]

/-- C9: with a 30-minute duration, zero buffer (step = 30 + 0 minutes), the
9:00–17:00 workday (at epoch day 0: 32400000 ms to 61200000 ms), exactly one
busy interval 10:00–10:30 (36000000 ms to 37800000 ms), and a minimum-notice
cutoff not affecting the day (at or before its 9:00 start), the per-day slot
loop yields exactly 15 slots. -/
theorem day_with_one_busy_yields_15_slots (earliestStart : Int)
    (h : earliestStart ≤ 32400000) :
    (genDaySlots [⟨36000000, 37800000⟩] earliestStart 30 30 61200000 32400000).length
      = 15 := by
  rw [genDaySlots_cutoff_inert [⟨36000000, 37800000⟩] earliestStart 0 30 30 61200000
    32400000 h (by omega)]
  simp [genDaySlots, isBusy]

/-- Closed instance of `day_with_one_busy_yields_15_slots` at cutoff 0. -/
theorem day_with_one_busy_yields_15_slots_witness :
    (genDaySlots [⟨36000000, 37800000⟩] 0 30 30 61200000 32400000).length = 15 :=
  day_with_one_busy_yields_15_slots 0 (by decide)

/-! ## Pending-request store and confirmation workflow

From the in-memory pending-requests store (`InMemoryPendingRequestsStore`)
and the pages router's `POST /:slug/requests` and
`GET /:slug/requests/:token/confirm` handlers. The store's `Map` is embedded
as an association list with unique-key lookup semantics; `Date.now()` is an
explicit `now : Int` argument. -/

/-- A pending request record (`PendingRequest` in pendingRequestsStore.ts).
Optional fields are `Option`; `createdAt` is epoch ms. -/
structure PendingRequest where
  token : String
  slug : String
  requesterName : String
  requesterEmail : String
  reason : String
  notes : Option String
  startIso : String
  endIso : String
  timezone : Option String
  createdAt : Int
deriving DecidableEq, Repr

/-- `TTL_MS = 60 * 60 * 1000` (1 hour). -/
def TTL_MS : Int := 60 * 60 * 1000

/-- The store's `Map<string, PendingRequest>`, as an association list. -/
abbrev StoreMap := List (String × PendingRequest)

/-- `Map.get`: the first entry with the given key, if any. -/
def mapGet (m : StoreMap) (token : String) : Option PendingRequest :=
  (m.find? fun p => p.1 == token).map Prod.snd

/-- `Map.delete`: removes the entry with the given key. -/
def mapDelete (m : StoreMap) (token : String) : StoreMap :=
  m.filter fun p => p.1 != token

/-- `InMemoryPendingRequestsStore.get`: `undefined` when the token is absent;
when present but older than the TTL (`now - createdAt > TTL_MS`), the entry is
deleted and `undefined` returned; otherwise the request is returned. Result is
`(returned value, updated store)`. -/
def storeGet (m : StoreMap) (now : Int) (token : String) :
    Option PendingRequest × StoreMap :=
  match mapGet m token with
  | none => (none, m)
  | some request =>
    if now - request.createdAt > TTL_MS then (none, mapDelete m token)
    else (some request, m)

/-- `InMemoryPendingRequestsStore.getAndDelete`: `get`, then delete the entry
when `get` returned a request. -/
def getAndDelete (m : StoreMap) (now : Int) (token : String) :
    Option PendingRequest × StoreMap :=
  let r := storeGet m now token
  match r.1 with
  | some _ => (r.1, mapDelete r.2 token)
  | none => (none, r.2)

/-- A booking record as created by the confirm handler's
`bookingsStore.create` call (`id`/`createdAt`, generated inside the store,
are omitted). -/
structure Booking where
  pageId : String
  requesterName : String
  requesterEmail : String
  reason : String
  notes : Option String
  startTime : String
  endTime : String
  timezone : Option String
deriving DecidableEq, Repr

/-- The four responses of the confirm handler: the success page, the generic
"link has expired or has already been used" page, the "scheduling page has
expired" page, and the 502 error page. -/
inductive ConfirmOutcome
  | confirmed
  | linkExpired
  | pageExpired
  | serverError
deriving DecidableEq, Repr

/-- Environment of one confirm call, abstracting the handler's collaborators:
whether `pagesStore.get(slug)` finds the page, the owner's decrypted
notification email if any, whether `sendAppointmentRequestEmail` succeeds,
`pagesStore.getPageId(slug)`, and whether `bookingsStore.create` succeeds
(its failure is caught and ignored). -/
structure ConfirmCtx where
  pageExists : Bool
  ownerEmail : Option String
  emailOk : Bool
  pageId : Option String
  bookingOk : Bool

/-- The confirm handler (`GET /:slug/requests/:token/confirm` in the pages
router): atomically fetch-and-remove the pending request; absent token or
slug mismatch gives the generic expired page; then page lookup; then
(inside `try`) owner notification — a failing send gives the 502 page with
no booking; then best-effort booking creation. Returns
`(outcome, store, bookings)`. -/
def confirm (ctx : ConfirmCtx) (m : StoreMap) (bookings : List Booking)
    (now : Int) (slug token : String) :
    ConfirmOutcome × StoreMap × List Booking :=
  let gd := getAndDelete m now token
  match gd.1 with
  | none => (.linkExpired, gd.2, bookings)
  | some pending =>
    if pending.slug ≠ slug then (.linkExpired, gd.2, bookings)
    else if !ctx.pageExists then (.pageExpired, gd.2, bookings)
    else if ctx.ownerEmail.isSome && !ctx.emailOk then (.serverError, gd.2, bookings)
    else
      match ctx.pageId with
      | some pageId =>
        if ctx.bookingOk then
          (.confirmed, gd.2,
            bookings ++ [⟨pageId, pending.requesterName, pending.requesterEmail,
              pending.reason, pending.notes, pending.startIso, pending.endIso,
              pending.timezone⟩])
        else (.confirmed, gd.2, bookings)
      | none => (.confirmed, gd.2, bookings)

/-- Deleting a token removes it from lookup. -/
theorem mapGet_mapDelete (m : StoreMap) (token : String) :
    mapGet (mapDelete m token) token = none := by
  induction m with
  | nil => rfl
  | cons p m ih =>
    by_cases hp : p.1 = token
    · simpa [mapDelete, List.filter_cons, hp] using ih
    · simpa [mapDelete, mapGet, List.filter_cons, List.find?_cons, hp] using ih

/-- A confirm call on a token the store does not hold reports the generic
expired outcome and changes nothing. -/
theorem confirm_absent (ctx : ConfirmCtx) (m : StoreMap) (bookings : List Booking)
    (now : Int) (slug token : String) (h : mapGet m token = none) :
    confirm ctx m bookings now slug token = (.linkExpired, m, bookings) := by
  simp [confirm, getAndDelete, storeGet, h]

/-- C1: for an issued pending-request token, two sequential Confirm calls
produce at most one booking in total: the first call consumes the token
(adding at most one booking), and the second finds nothing, adds no booking,
and reports the generic already-used-or-expired outcome. -/
theorem confirm_token_used_once (ctx1 ctx2 : ConfirmCtx) (m : StoreMap)
    (bookings : List Booking) (now1 now2 : Int) (slug token : String)
    (r : PendingRequest) (hget : mapGet m token = some r) (hslug : r.slug = slug)
    (hfresh : now1 - r.createdAt ≤ TTL_MS)
    (out1 out2 : ConfirmOutcome) (m1 m2 : StoreMap) (b1 b2 : List Booking)
    (h1 : confirm ctx1 m bookings now1 slug token = (out1, m1, b1))
    (h2 : confirm ctx2 m1 b1 now2 slug token = (out2, m2, b2)) :
    (b1 = bookings ∨ ∃ bk, b1 = bookings ++ [bk]) ∧
      mapGet m1 token = none ∧
      out2 = ConfirmOutcome.linkExpired ∧ b2 = b1 := by
  have hgd : getAndDelete m now1 token = (some r, mapDelete m token) := by
    simp only [getAndDelete, storeGet, hget]
    rw [if_neg (by omega)]
  have key : (confirm ctx1 m bookings now1 slug token).2.1 = mapDelete m token ∧
      ((confirm ctx1 m bookings now1 slug token).2.2 = bookings ∨
        ∃ bk, (confirm ctx1 m bookings now1 slug token).2.2 = bookings ++ [bk]) := by
    cases hpage : ctx1.pageExists <;> cases hpid : ctx1.pageId <;>
      cases hbok : ctx1.bookingOk <;>
      cases hmail : ctx1.ownerEmail.isSome && !ctx1.emailOk <;>
      simp [confirm, hgd, hslug, hpage, hpid, hbok, hmail]
  rw [h1] at key
  obtain ⟨hm1, hb1⟩ := key
  simp only at hm1 hb1
  have hnone : mapGet m1 token = none := by
    rw [hm1]; exact mapGet_mapDelete m token
  have h2' := confirm_absent ctx2 m1 b1 now2 slug token hnone
  rw [h2'] at h2
  simp only [Prod.mk.injEq] at h2
  exact ⟨hb1, hnone, h2.1.symm, h2.2.2.symm⟩

/-- Closed instance of `confirm_token_used_once` on a one-entry store. -/
theorem confirm_token_used_once_witness :
    (([⟨"p", "n", "e", "why", none, "a", "b", none⟩] : List Booking) = [] ∨
      ∃ bk, ([⟨"p", "n", "e", "why", none, "a", "b", none⟩] : List Booking) = [] ++ [bk]) ∧
      mapGet [] "t" = none ∧
      ConfirmOutcome.linkExpired = ConfirmOutcome.linkExpired ∧
      ([⟨"p", "n", "e", "why", none, "a", "b", none⟩] : List Booking) =
        [⟨"p", "n", "e", "why", none, "a", "b", none⟩] :=
  confirm_token_used_once ⟨true, none, true, some "p", true⟩ ⟨true, none, true, some "p", true⟩
    [("t", ⟨"t", "s", "n", "e", "why", none, "a", "b", none, 0⟩)] [] 0 5 "s" "t"
    ⟨"t", "s", "n", "e", "why", none, "a", "b", none, 0⟩ rfl rfl (by decide)
    ConfirmOutcome.confirmed ConfirmOutcome.linkExpired [] []
    [⟨"p", "n", "e", "why", none, "a", "b", none⟩] [⟨"p", "n", "e", "why", none, "a", "b", none⟩]
    rfl rfl

/-- C6: a pending request created at `T` and confirmed at `T + 61` minutes
(TTL fixed at 60 minutes) is rejected: the token lookup yields nothing and
the confirm call reports the generic expired outcome without creating a
booking. -/
theorem confirm_after_ttl_rejected (ctx : ConfirmCtx) (m : StoreMap)
    (bookings : List Booking) (T : Int) (slug token : String) (r : PendingRequest)
    (hget : mapGet m token = some r) (hT : r.createdAt = T) :
    (storeGet m (T + 61 * 60 * 1000) token).1 = none ∧
      (confirm ctx m bookings (T + 61 * 60 * 1000) slug token).1 =
        ConfirmOutcome.linkExpired ∧
      (confirm ctx m bookings (T + 61 * 60 * 1000) slug token).2.2 = bookings := by
  have hsg : storeGet m (T + 61 * 60 * 1000) token = (none, mapDelete m token) := by
    simp only [storeGet, hget]
    rw [if_pos (by simp only [hT, TTL_MS]; omega)]
  norm_num at hsg
  refine ⟨by norm_num [hsg], ?_, ?_⟩ <;>
    simp [confirm, getAndDelete, hsg]

/-- Closed instance of `confirm_after_ttl_rejected` at `T = 0`. -/
theorem confirm_after_ttl_rejected_witness :
    (storeGet [("t", ⟨"t", "s", "n", "e", "why", none, "a", "b", none, 0⟩)]
        ((0 : Int) + 61 * 60 * 1000) "t").1 = none ∧
      (confirm ⟨true, none, true, some "p", true⟩
        [("t", ⟨"t", "s", "n", "e", "why", none, "a", "b", none, 0⟩)] []
        ((0 : Int) + 61 * 60 * 1000) "s" "t").1 = ConfirmOutcome.linkExpired ∧
      (confirm ⟨true, none, true, some "p", true⟩
        [("t", ⟨"t", "s", "n", "e", "why", none, "a", "b", none, 0⟩)] []
        ((0 : Int) + 61 * 60 * 1000) "s" "t").2.2 = [] :=
  confirm_after_ttl_rejected ⟨true, none, true, some "p", true⟩
    [("t", ⟨"t", "s", "n", "e", "why", none, "a", "b", none, 0⟩)] [] 0 "s" "t"
    ⟨"t", "s", "n", "e", "why", none, "a", "b", none, 0⟩ rfl rfl

/-! ## Calendar feed expansion

From `fetchAndParseCalendar` in backend/src/services/calendar.ts. The
recurrence library (`rrule`) is an external dependency whose occurrence
enumeration is modelled from the spec for the daily, count-bounded rule the
claims exercise. -/

/-- JS `a || b` on a possibly-absent string: `b` when `a` is absent or empty. -/
def orElseStr (a : Option String) (b : String) : String :=
  match a with
  | some s => if s = "" then b else s
  | none => b

/-- The UTC calendar date of an instant, as days since the epoch — the value
of `toISOString().split("T")[0]` up to the bijection between date strings and
day numbers. -/
def dateIndex (t : Int) : Int := Int.fdiv t 86400000

/-- Modelled from the spec: the external `rrule` package's occurrence
enumeration `between(startDate, endDate, true)` for a daily rule bounded by
`count` — the rule starting at `dtstart` has occurrence starts
`dtstart + k · day` for `k < count`, and the inclusive window keeps those
with `startDate ≤ t ≤ endDate`. -/
def dailyBetween (dtstart : Int) (count : Nat) (startDate endDate : Int) : List Int :=
  ((List.range count).map fun k : Nat => dtstart + (k : Int) * 86400000).filter
    fun t => decide (startDate ≤ t) && decide (t ≤ endDate)

/-- The recurring-event branch of `fetchAndParseCalendar` for a daily rule
with `count`: enumerate occurrences, drop any whose calendar date is in the
exception-date set (dates of the raw `exdate` instants), give each the
original event's duration, and keep it iff
`occurrenceEnd >= startDate && occurrence <= endDate`. -/
def expandDaily (eventStart eventEnd : Int) (count : Nat) (exdate : List Int)
    (startDate endDate : Int) : List Interval :=
  let exdates := exdate.map dateIndex
  (dailyBetween eventStart count startDate endDate).flatMap fun occurrence =>
    if dateIndex occurrence ∈ exdates then []
    else
      let occurrenceEnd := occurrence + (eventEnd - eventStart)
      if occurrenceEnd ≥ startDate ∧ occurrence ≤ endDate then
        [⟨occurrence, occurrenceEnd⟩]
      else []

/-- A parsed calendar event as consumed by the expansion loop: optional
start/end instants, the two transparency spellings, an optional (daily,
count-bounded) recurrence rule, and raw exception-date instants. -/
structure VEvent where
  start? : Option Int
  end? : Option Int
  transp : Option String
  transparency : Option String
  rrule : Option Nat
  exdate : List Int
deriving DecidableEq, Repr

/-- Per-event processing of `fetchAndParseCalendar`: skip events without
start or end; resolve transparency as `event.transp || event.transparency ||
"OPAQUE"` and skip `TRANSPARENT` events; expand a recurring event through its
rule; otherwise emit the event itself iff
`eventStart <= endDate && eventEnd >= startDate`. -/
def processEvent (event : VEvent) (startDate endDate : Int) : List Interval :=
  match event.start?, event.end? with
  | some eventStart, some eventEnd =>
    if orElseStr event.transp (orElseStr event.transparency "OPAQUE") = "TRANSPARENT" then
      []
    else
      match event.rrule with
      | some count => expandDaily eventStart eventEnd count event.exdate startDate endDate
      | none =>
        if eventStart ≤ endDate ∧ eventEnd ≥ startDate then [⟨eventStart, eventEnd⟩]
        else []
  | _, _ => []

/-- Counterexample to C5: an opaque non-recurring event `[0, 10)` and window
`[10, 20]` fail the half-open overlap test (`eventEnd > windowStart` is
false), yet the code emits one busy interval, because the non-recurring
branch tests `eventStart <= endDate && eventEnd >= startDate`. -/
theorem single_event_half_open_refuted :
    (processEvent ⟨some 0, some 10, none, none, none, []⟩ 10 20).length = 1 ∧
      ¬((0 : Int) < 20 ∧ (10 : Int) > 10) := by
  decide

/-- C5 (amended): a non-recurring event with start and end present and not
transparent is emitted exactly once iff it overlaps the window under the
closed test `eventStart ≤ windowEnd ∧ eventEnd ≥ windowStart`, and not at
all otherwise. -/
theorem single_event_closed_overlap (event : VEvent) (es ee ws we : Int)
    (hs : event.start? = some es) (he : event.end? = some ee)
    (hr : event.rrule = none)
    (ht : orElseStr event.transp (orElseStr event.transparency "OPAQUE") ≠ "TRANSPARENT") :
    processEvent event ws we = if es ≤ we ∧ ee ≥ ws then [⟨es, ee⟩] else [] := by
  simp [processEvent, hs, he, hr, ht]

/-- Closed instance of `single_event_closed_overlap`: the boundary event of
the counterexample. -/
theorem single_event_closed_overlap_witness :
    processEvent ⟨some 0, some 10, none, none, none, []⟩ 10 20 =
      if (0 : Int) ≤ 20 ∧ (10 : Int) ≥ 10 then [⟨0, 10⟩] else [] :=
  single_event_closed_overlap ⟨some 0, some 10, none, none, none, []⟩ 0 10 10 20
    rfl rfl rfl (by decide)

/-- Every interval emitted by the recurring-event branch starts on a calendar
date outside the exception set. -/
theorem mem_expandDaily_not_exdate (es ee : Int) (count : Nat) (exdate : List Int)
    (ws we : Int) (s : Interval) (hs : s ∈ expandDaily es ee count exdate ws we) :
    dateIndex s.start ∉ exdate.map dateIndex := by
  simp only [expandDaily] at hs
  obtain ⟨occ, _, hmem⟩ := List.mem_flatMap.mp hs
  by_cases hex : dateIndex occ ∈ exdate.map dateIndex
  · simp [hex] at hmem
  · rw [if_neg hex] at hmem
    split_ifs at hmem with hov
    · rcases List.mem_singleton.mp hmem with rfl
      exact hex
    · simp at hmem

/-- A flat map whose pieces are all singletons preserves length. -/
theorem flatMap_singleton_length {α β : Type} (l : List α) (f : α → List β)
    (h : ∀ x ∈ l, (f x).length = 1) : (l.flatMap f).length = l.length := by
  induction l with
  | nil => rfl
  | cons a l ih =>
    rw [List.flatMap_cons, List.length_append, h a (List.mem_cons_self a l),
      ih fun x hx => h x (List.mem_cons_of_mem a hx), List.length_cons]
    omega

/-- C8: a daily rule with `count = 5` starting at the event start `D`,
expanded over a window covering `D .. D+10` days, yields exactly 5
occurrences when no occurrence date is in the exception set, and no emitted
occurrence ever falls on a calendar date of the exception set (matching is
by calendar date, not by instant). -/
theorem daily_count5_expansion (es ee ws we : Int) (exdate : List Int)
    (hdur : es ≤ ee) (hws : ws ≤ es) (hwe : es + 10 * 86400000 ≤ we) :
    ((∀ k : Nat, k < 5 → dateIndex (es + k * 86400000) ∉ exdate.map dateIndex) →
      (expandDaily es ee 5 exdate ws we).length = 5) ∧
      ∀ s ∈ expandDaily es ee 5 exdate ws we,
        dateIndex s.start ∉ exdate.map dateIndex := by
  constructor
  · intro hex
    have hdb : dailyBetween es 5 ws we =
        (List.range 5).map fun k : Nat => es + (k : Int) * 86400000 := by
      simp only [dailyBetween]
      apply List.filter_eq_self.mpr
      intro t ht
      obtain ⟨k, hk, rfl⟩ := List.mem_map.mp ht
      have hk5 : k < 5 := List.mem_range.mp hk
      simp only [Bool.and_eq_true, decide_eq_true_eq]
      constructor <;> omega
    simp only [expandDaily, hdb]
    rw [flatMap_singleton_length]
    · simp
    · intro t ht
      obtain ⟨k, hk, rfl⟩ := List.mem_map.mp ht
      have hk5 : k < 5 := List.mem_range.mp hk
      rw [if_neg (hex k hk5), if_pos (by constructor <;> omega)]
      rfl
  · intro s hs
    exact mem_expandDaily_not_exdate es ee 5 exdate ws we s hs

/-- Closed instance of `daily_count5_expansion`: rule start 0, one-hour
duration, empty exception set, window `[0, 10 days]`. -/
theorem daily_count5_expansion_witness :
    ((∀ k : Nat, k < 5 →
        dateIndex ((0 : Int) + k * 86400000) ∉ ([] : List Int).map dateIndex) →
      (expandDaily 0 3600000 5 [] 0 864000000).length = 5) ∧
      ∀ s ∈ expandDaily 0 3600000 5 [] 0 864000000,
        dateIndex s.start ∉ ([] : List Int).map dateIndex :=
  daily_count5_expansion 0 3600000 0 864000000 [] (by decide) (by decide) (by decide)

/-! ## Feed parsing: envelope and event blocks

The iCalendar text parse (`ical.sync.parseICS`, called by
`fetchAndParseCalendar`) is an external dependency not present in the
source tree; the parse step is modelled from the spec. -/

/-- Modelled from the spec: the event blocks of an iCalendar text — the
groups of lines strictly between a `BEGIN:VEVENT` line and the next
`END:VEVENT` line. -/
def eventBlocks : List String → List (List String)
  | [] => []
  | l :: ls =>
    if l = "BEGIN:VEVENT" then
      (ls.takeWhile fun x => x != "END:VEVENT") ::
        eventBlocks ((ls.dropWhile fun x => x != "END:VEVENT").drop 1)
    else eventBlocks ls
termination_by lines => lines.length
decreasing_by
  · have h1 : List.Sublist (ls.dropWhile fun x => x != "END:VEVENT") ls :=
      List.dropWhile_sublist _
    have := h1.length_le
    simp [List.length_drop]
    omega
  · simp

/-- Modelled from the spec: the integer value of a `KEY:<value>` content line
of a block, if any line carries one. -/
def fieldValue (blk : List String) (key : String) : Option Int :=
  (blk.filterMap fun l =>
    if l.startsWith (key ++ ":") then (l.drop (key.length + 1)).toInt? else none).head?

/-- Modelled from the spec: the string value of a `KEY:<value>` content line. -/
def fieldStr (blk : List String) (key : String) : Option String :=
  (blk.filterMap fun l =>
    if l.startsWith (key ++ ":") then some (l.drop (key.length + 1)) else none).head?

/-- Modelled from the spec: parse one VEVENT block — it must carry parseable
`DTSTART` and `DTEND` lines, else the block is malformed and yields nothing. -/
def parseEventBlock (blk : List String) : Option VEvent :=
  match fieldValue blk "DTSTART", fieldValue blk "DTEND" with
  | some s, some e => some ⟨some s, some e, fieldStr blk "TRANSP", none, none, []⟩
  | _, _ => none

/-- Modelled from the spec: the whole parse operation — fail when no valid
calendar envelope (`BEGIN:VCALENDAR` … `END:VCALENDAR`) is present;
otherwise succeed with the events of the well-formed blocks, skipping
malformed ones. -/
def parseICS (lines : List String) : Except String (List VEvent) :=
  if "BEGIN:VCALENDAR" ∈ lines ∧ "END:VCALENDAR" ∈ lines then
    Except.ok ((eventBlocks lines).filterMap parseEventBlock)
  else Except.error "no valid calendar envelope"

/-- C7: the parse fails as a whole exactly when the input has no valid
calendar envelope; with an envelope present it always succeeds, each
returned event coming from some well-formed block — malformed blocks are
skipped without aborting the parse. -/
theorem parse_envelope_failure (lines : List String) :
    (¬("BEGIN:VCALENDAR" ∈ lines ∧ "END:VCALENDAR" ∈ lines) →
      parseICS lines = Except.error "no valid calendar envelope") ∧
      (("BEGIN:VCALENDAR" ∈ lines ∧ "END:VCALENDAR" ∈ lines) →
        ∃ evs, parseICS lines = Except.ok evs ∧
          ∀ ev ∈ evs, ∃ blk ∈ eventBlocks lines, parseEventBlock blk = some ev) := by
  constructor
  · intro h
    simp [parseICS, h]
  · intro h
    refine ⟨(eventBlocks lines).filterMap parseEventBlock, by simp [parseICS, h], ?_⟩
    intro ev hev
    obtain ⟨blk, hblk, hp⟩ := List.mem_filterMap.mp hev
    exact ⟨blk, hblk, hp⟩

/-- A sample feed: a valid envelope holding one malformed event block and
one well-formed one. -/
def icsSample : List String :=
  ["BEGIN:VCALENDAR", "BEGIN:VEVENT", "oops", "END:VEVENT",
    "BEGIN:VEVENT", "DTSTART:1", "DTEND:2", "END:VEVENT", "END:VCALENDAR"]

/-- Closed instance of `parse_envelope_failure` on a feed with one malformed
and one well-formed event block inside a valid envelope. -/
theorem parse_envelope_failure_witness :
    ∃ evs, parseICS icsSample = Except.ok evs ∧
      ∀ ev ∈ evs, ∃ blk ∈ eventBlocks icsSample, parseEventBlock blk = some ev :=
  (parse_envelope_failure icsSample).2 (by decide)

/-! ## Request submission

From the `POST /:slug/requests` handler of the pages router. -/

/-- The request body; absent optional fields are `""`/`none` (JS `undefined`
is falsy, as is the empty string). -/
structure RequestBody where
  requesterName : String
  requesterEmail : String
  reason : String
  notes : Option String
  startIso : String
  endIso : String
  timezone : Option String
  honeypot : String
deriving DecidableEq, Repr

/-- The handler's response bodies: the `status: verification_sent` payload
or an error payload. -/
inductive RequestOutcome
  | verificationSent
  | errorResponse
deriving DecidableEq, Repr

/-- Result of one submission: HTTP status, body kind, the pending store
afterwards, and whether `sendVerificationEmail` was invoked. -/
structure RequestResult where
  status : Nat
  body : RequestOutcome
  store : StoreMap
  emailAttempted : Bool
deriving DecidableEq, Repr

/-- The `POST /:slug/requests` handler: 404 when the page is missing; the
honeypot check answers 202 `verification_sent` before any validation, store
access or email send; then required-field, email-format (the `EMAIL_RE`
regex test, abstracted as `emailFormatOk`) and length validations answer
400; otherwise the pending request is stored under a fresh token
(`randomUUID`, supplied as `freshToken`) and the verification email is
sent — a failing send answers 502, the entry having been stored already. -/
def requestsHandler (pageExists emailFormatOk emailOk : Bool) (freshToken : String)
    (now : Int) (slug : String) (body : RequestBody) (m : StoreMap) : RequestResult :=
  if !pageExists then ⟨404, .errorResponse, m, false⟩
  else if body.honeypot ≠ "" then ⟨202, .verificationSent, m, false⟩
  else if body.requesterName = "" ∨ body.requesterEmail = "" ∨ body.reason = "" ∨
      body.startIso = "" ∨ body.endIso = "" then ⟨400, .errorResponse, m, false⟩
  else if !emailFormatOk then ⟨400, .errorResponse, m, false⟩
  else if body.requesterName.length < 2 ∨ body.requesterName.length > 100 then
    ⟨400, .errorResponse, m, false⟩
  else if body.reason.length < 10 ∨ body.reason.length > 500 then
    ⟨400, .errorResponse, m, false⟩
  else if body.notes.elim false fun n => decide (n.length > 500) then
    ⟨400, .errorResponse, m, false⟩
  else
    let m1 := (freshToken, (⟨freshToken, slug, body.requesterName, body.requesterEmail,
      body.reason, body.notes, body.startIso, body.endIso, body.timezone, now⟩ :
        PendingRequest)) :: m
    if emailOk then ⟨202, .verificationSent, m1, true⟩
    else ⟨502, .errorResponse, m1, true⟩

/-- C10: a submission with a non-empty honeypot field receives the same
success response (202, `verification_sent`) as a genuine valid submission,
but leaves the pending store unchanged and never attempts the verification
email; a genuine valid submission (empty honeypot, all validations passing,
email send succeeding) indeed receives (202, `verification_sent`). -/
theorem honeypot_submission_inert (emailFormatOk emailOk : Bool) (freshToken : String)
    (now : Int) (slug : String) (body genuine : RequestBody) (m : StoreMap)
    (hhp : body.honeypot ≠ "") :
    requestsHandler true emailFormatOk emailOk freshToken now slug body m =
      ⟨202, RequestOutcome.verificationSent, m, false⟩ ∧
      (genuine.honeypot = "" →
        genuine.requesterName ≠ "" → genuine.requesterEmail ≠ "" →
        genuine.reason ≠ "" → genuine.startIso ≠ "" → genuine.endIso ≠ "" →
        2 ≤ genuine.requesterName.length → genuine.requesterName.length ≤ 100 →
        10 ≤ genuine.reason.length → genuine.reason.length ≤ 500 →
        (genuine.notes.elim false fun n => decide (n.length > 500)) = false →
        (requestsHandler true true true freshToken now slug genuine m).status = 202 ∧
          (requestsHandler true true true freshToken now slug genuine m).body =
            RequestOutcome.verificationSent) := by
  constructor
  · simp only [requestsHandler, Bool.not_true]
    rw [if_neg (by simp), if_pos hhp]
  · intro h0 h1 h2 h3 h4 h5 h6 h7 h8 h9 h10
    simp only [requestsHandler, Bool.not_true]
    rw [if_neg (by simp), if_neg (by simp [h0]),
      if_neg (by simp [h1, h2, h3, h4, h5]), if_neg (by simp),
      if_neg (by omega), if_neg (by omega), if_neg (by simp [h10])]
    simp

/-- Closed instance of `honeypot_submission_inert`: a bot submission with
honeypot `"x"` against a genuine valid submission. -/
theorem honeypot_submission_inert_witness :
    requestsHandler true true true "t" 0 "pg"
        ⟨"", "", "", none, "", "", none, "x"⟩ [] =
      ⟨202, RequestOutcome.verificationSent, [], false⟩ ∧
      ((⟨"Jo", "a@b.c", "please meet me", none, "s", "e", none, ""⟩ :
          RequestBody).honeypot = "" →
        (⟨"Jo", "a@b.c", "please meet me", none, "s", "e", none, ""⟩ :
          RequestBody).requesterName ≠ "" →
        (⟨"Jo", "a@b.c", "please meet me", none, "s", "e", none, ""⟩ :
          RequestBody).requesterEmail ≠ "" →
        (⟨"Jo", "a@b.c", "please meet me", none, "s", "e", none, ""⟩ :
          RequestBody).reason ≠ "" →
        (⟨"Jo", "a@b.c", "please meet me", none, "s", "e", none, ""⟩ :
          RequestBody).startIso ≠ "" →
        (⟨"Jo", "a@b.c", "please meet me", none, "s", "e", none, ""⟩ :
          RequestBody).endIso ≠ "" →
        2 ≤ (⟨"Jo", "a@b.c", "please meet me", none, "s", "e", none, ""⟩ :
          RequestBody).requesterName.length →
        (⟨"Jo", "a@b.c", "please meet me", none, "s", "e", none, ""⟩ :
          RequestBody).requesterName.length ≤ 100 →
        10 ≤ (⟨"Jo", "a@b.c", "please meet me", none, "s", "e", none, ""⟩ :
          RequestBody).reason.length →
        (⟨"Jo", "a@b.c", "please meet me", none, "s", "e", none, ""⟩ :
          RequestBody).reason.length ≤ 500 →
        ((⟨"Jo", "a@b.c", "please meet me", none, "s", "e", none, ""⟩ :
          RequestBody).notes.elim false fun n => decide (n.length > 500)) = false →
        (requestsHandler true true true "t" 0 "pg"
          ⟨"Jo", "a@b.c", "please meet me", none, "s", "e", none, ""⟩ []).status = 202 ∧
          (requestsHandler true true true "t" 0 "pg"
            ⟨"Jo", "a@b.c", "please meet me", none, "s", "e", none, ""⟩ []).body =
            RequestOutcome.verificationSent) :=
  honeypot_submission_inert true true "t" 0 "pg"
    ⟨"", "", "", none, "", "", none, "x"⟩
    ⟨"Jo", "a@b.c", "please meet me", none, "s", "e", none, ""⟩ [] (by decide)

end CalAnywhere
